import Mathlib

/-!
# CPU core state helpers (src/core/cpu_core.h)

A shallow embedding of the declarative surface of the CPU core: the address
constants of the data and instruction caches, the `CacheControl` register,
the execution `State` with its tick helpers, and the profiler counter sets.

Machine integers are unbounded `Nat`/`Int` values with the reduction modulo
`2^32` (or `2^64`) written out wherever the C++ arithmetic can leave the
range of its type.
-/

namespace CPU

/-! ## Machine integers -/

/-- Reduction of an integer to the signed 32-bit range (two's complement
wraparound), the value range of `TickCount` (`s32`). -/
def wrapS32 (x : Int) : Int := (x + 2147483648) % 4294967296 - 2147483648

/-- The value lies in the range of a signed 32-bit integer. -/
def IsS32 (x : Int) : Prop := -2147483648 ≤ x ∧ x ≤ 2147483647

instance (x : Int) : Decidable (IsS32 x) := by
  unfold IsS32; exact inferInstance

/-- Reduction of a natural number to the `u32` range. -/
def wrapU32 (x : Nat) : Nat := x % 4294967296

/-- Reduction of a natural number to the `u64` range. -/
def wrapU64 (x : Nat) : Nat := x % 18446744073709551616

/-! ## Address constants (cpu_core.h lines 18-35) -/

def RESET_VECTOR : Nat := 0xBFC00000
def DCACHE_LOCATION : Nat := 0x1F800000
def DCACHE_LOCATION_MASK : Nat := 0xFFFFFC00
def DCACHE_OFFSET_MASK : Nat := 0x000003FF
def DCACHE_SIZE : Nat := 0x00000400
def ICACHE_SIZE : Nat := 0x00001000
/-- The size in bytes of a `u32`, the `sizeof(u32)` of the source. -/
def SIZEOF_U32 : Nat := 4
def ICACHE_SLOTS : Nat := ICACHE_SIZE / SIZEOF_U32
def ICACHE_LINE_SIZE : Nat := 16
def ICACHE_LINES : Nat := ICACHE_SIZE / ICACHE_LINE_SIZE
def ICACHE_SLOTS_PER_LINE : Nat := ICACHE_SLOTS / ICACHE_LINES
def ICACHE_TAG_ADDRESS_MASK : Nat := 0xFFFFFFF0
def ICACHE_INVALID_BITS : Nat := 0x0F

/-- Number of set bits among the 32 bits of a word. -/
def popCount32 (x : Nat) : Nat := ((List.range 32).filter (fun i => x.testBit i)).length

/-- The tag word of an instruction-cache line: the line address in the bits of
`ICACHE_TAG_ADDRESS_MASK`, the per-word invalid bits `v` below them. -/
def icacheTagWord (a v : Nat) : Nat := (a &&& ICACHE_TAG_ADDRESS_MASK) ||| v

/-! ## The cache-control register (cpu_core.h lines 37-48) -/

/-- Modelled from the spec: the `BitField<BackingType, DataType, Index, Count>`
template of `common/bitfield.h` is missing. A field is the run of `count`
bits starting at bit `index` of the 32-bit backing word it shares with the
other members of the union. -/
structure BitField where
  index : Nat
  count : Nat
deriving DecidableEq

namespace BitField

/-- Modelled from the spec: `BitField::GetMask` of the missing
`common/bitfield.h`: all-ones shifted right to `count` bits, then left to the
field's position, in `u32` arithmetic. -/
def GetMask (f : BitField) : Nat := wrapU32 ((0xFFFFFFFF >>> (32 - f.count)) <<< f.index)

/-- Modelled from the spec: `BitField::GetValue` of the missing
`common/bitfield.h`: the field's bits, moved down to bit 0. -/
def GetValue (f : BitField) (data : Nat) : Nat := (data &&& f.GetMask) >>> f.index

/-- Modelled from the spec: `BitField::SetValue` of the missing
`common/bitfield.h`: the bits outside the mask are kept, the bits inside it
come from the value shifted to the field's position. -/
def SetValue (f : BitField) (data value : Nat) : Nat :=
  (data &&& (0xFFFFFFFF ^^^ f.GetMask)) ||| (wrapU32 (value <<< f.index) &&& f.GetMask)

/-- Bit `i` of the backing word belongs to the field. -/
def InRange (f : BitField) (i : Nat) : Prop := f.index ≤ i ∧ i < f.index + f.count

instance (f : BitField) (i : Nat) : Decidable (f.InRange i) := by
  unfold InRange; exact inferInstance

end BitField

/-- The union `CacheControl`: one `u32` word, `bits`, viewed through seven
bit fields. -/
structure CacheControl where
  bits : Nat
deriving DecidableEq

namespace CacheControl

/-- The seven bit-field members of the union. -/
inductive Field where
  | lock_mode
  | invalidate_mode
  | tag_test_mode
  | dcache_scratchpad
  | dcache_enable
  | icache_fill_size
  | icache_enable
deriving DecidableEq

namespace Field

/-- Position and width of each member, as declared in the union. -/
def bitfield : Field → BitField
  | lock_mode => ⟨0, 1⟩
  | invalidate_mode => ⟨1, 1⟩
  | tag_test_mode => ⟨2, 1⟩
  | dcache_scratchpad => ⟨3, 1⟩
  | dcache_enable => ⟨7, 1⟩
  | icache_fill_size => ⟨8, 2⟩
  | icache_enable => ⟨11, 1⟩

/-- The member's data type is `bool` (all but `icache_fill_size`, a `u8`). -/
def isBool : Field → Bool
  | icache_fill_size => false
  | _ => true

/-- Conversion of a value to the member's data type, then to the `u32` that is
shifted into place: a `bool` becomes 0 or 1, a `u8` is kept modulo 256. -/
def cast (F : Field) (v : Nat) : Nat :=
  if F.isBool then (if v = 0 then 0 else 1) else v % 256

end Field

/-- Reading member `F`. -/
def read (c : CacheControl) (F : Field) : Nat := F.cast (F.bitfield.GetValue c.bits)

/-- Assigning `v` to member `F`. -/
def write (c : CacheControl) (F : Field) (v : Nat) : CacheControl :=
  ⟨F.bitfield.SetValue c.bits (F.cast v)⟩

end CacheControl

/-! ## Execution state (cpu_core.h lines 50-98) -/

/-- The struct `State`. The types `Registers`, `Cop0Registers`, `Instruction`,
`Reg` and `GTE::Regs` are declared in headers outside this file and are
parameters here; the two pointers are their addresses. -/
structure State (Registers Cop0Registers Instruction Reg GTERegs : Type) where
  downcount : Int
  pending_ticks : Int
  gte_completion_tick : Int
  regs : Registers
  cop0_regs : Cop0Registers
  pc : Nat
  npc : Nat
  current_instruction : Instruction
  current_instruction_pc : Nat
  current_instruction_in_branch_delay_slot : Bool
  current_instruction_was_branch_taken : Bool
  next_instruction_is_branch_delay_slot : Bool
  branch_was_taken : Bool
  exception_raised : Bool
  bus_error : Bool
  load_delay_reg : Reg
  next_load_delay_reg : Reg
  load_delay_value : Nat
  next_load_delay_value : Nat
  next_instruction : Instruction
  cache_control : CacheControl
  gte_regs : GTERegs
  use_debug_dispatcher : Bool
  fastmem_base : Nat
  memory_handlers : Nat
  dcache : List Nat
  icache_tags : List Nat
  icache_data : List Nat
deriving DecidableEq

section Ticks

variable {Registers Cop0Registers Instruction Reg GTERegs : Type}

/-- The function `GetPendingTicks` (lines 122-125). -/
def GetPendingTicks (g_state : State Registers Cop0Registers Instruction Reg GTERegs) : Int :=
  g_state.pending_ticks

/-- The function `ResetPendingTicks` (lines 126-131); the subtraction is
reduced to the signed 32-bit range. -/
def ResetPendingTicks (g_state : State Registers Cop0Registers Instruction Reg GTERegs) :
    State Registers Cop0Registers Instruction Reg GTERegs :=
  { g_state with
    gte_completion_tick :=
      if g_state.pending_ticks < g_state.gte_completion_tick then
        wrapS32 (g_state.gte_completion_tick - g_state.pending_ticks)
      else 0
    pending_ticks := 0 }

/-- The function `AddPendingTicks` (lines 132-135); the addition is reduced to
the signed 32-bit range. -/
def AddPendingTicks (g_state : State Registers Cop0Registers Instruction Reg GTERegs)
    (ticks : Int) : State Registers Cop0Registers Instruction Reg GTERegs :=
  { g_state with pending_ticks := wrapS32 (g_state.pending_ticks + ticks) }

end Ticks

/-- A state over trivial register types with the given tick counters and
every other field at its default initialiser. -/
def tickState (p g : Int) : State Unit Unit Unit Unit Unit :=
  { downcount := 0, pending_ticks := p, gte_completion_tick := g,
    regs := (), cop0_regs := (), pc := 0, npc := 0,
    current_instruction := (), current_instruction_pc := 0,
    current_instruction_in_branch_delay_slot := false,
    current_instruction_was_branch_taken := false,
    next_instruction_is_branch_delay_slot := false,
    branch_was_taken := false, exception_raised := false, bus_error := false,
    load_delay_reg := (), next_load_delay_reg := (),
    load_delay_value := 0, next_load_delay_value := 0,
    next_instruction := (), cache_control := ⟨0⟩, gte_regs := (),
    use_debug_dispatcher := false, fastmem_base := 0, memory_handlers := 0,
    dcache := [], icache_tags := [], icache_data := [] }

/-! ## Profiler counter sets (cpu_core.h lines 212-272) -/

/-- The struct `ProfilerCountSet`: six `u32` counters and a `u64` cycle count. -/
structure ProfilerCountSet where
  InstructionFetch : Nat
  InstrFetchMiss : Nat
  DataReadAccess : Nat
  DataReadMiss : Nat
  DataWriteAccess : Nat
  DataWriteMiss : Nat
  Cycles : Nat
deriving DecidableEq

namespace ProfilerCountSet

/-- Every counter is in the range of its C++ type. -/
def WF (a : ProfilerCountSet) : Prop :=
  a.InstructionFetch < 4294967296 ∧ a.InstrFetchMiss < 4294967296 ∧
  a.DataReadAccess < 4294967296 ∧ a.DataReadMiss < 4294967296 ∧
  a.DataWriteAccess < 4294967296 ∧ a.DataWriteMiss < 4294967296 ∧
  a.Cycles < 18446744073709551616

instance (a : ProfilerCountSet) : Decidable a.WF := by
  unfold WF; exact inferInstance

/-- Unsigned 32-bit subtraction: the difference modulo `2^32`. -/
def subU32 (x y : Nat) : Nat := wrapU32 (x + (4294967296 - wrapU32 y))

/-- Unsigned 64-bit subtraction: the difference modulo `2^64`. -/
def subU64 (x y : Nat) : Nat := wrapU64 (x + (18446744073709551616 - wrapU64 y))

/-- The member `operator+` (lines 223-233). -/
def add (self other : ProfilerCountSet) : ProfilerCountSet :=
  { InstructionFetch := wrapU32 (self.InstructionFetch + other.InstructionFetch)
    InstrFetchMiss := wrapU32 (self.InstrFetchMiss + other.InstrFetchMiss)
    DataReadAccess := wrapU32 (self.DataReadAccess + other.DataReadAccess)
    DataReadMiss := wrapU32 (self.DataReadMiss + other.DataReadMiss)
    DataWriteAccess := wrapU32 (self.DataWriteAccess + other.DataWriteAccess)
    DataWriteMiss := wrapU32 (self.DataWriteMiss + other.DataWriteMiss)
    Cycles := wrapU64 (self.Cycles + other.Cycles) }

/-- The member `operator-` (lines 244-254). -/
def sub (self other : ProfilerCountSet) : ProfilerCountSet :=
  { InstructionFetch := subU32 self.InstructionFetch other.InstructionFetch
    InstrFetchMiss := subU32 self.InstrFetchMiss other.InstrFetchMiss
    DataReadAccess := subU32 self.DataReadAccess other.DataReadAccess
    DataReadMiss := subU32 self.DataReadMiss other.DataReadMiss
    DataWriteAccess := subU32 self.DataWriteAccess other.DataWriteAccess
    DataWriteMiss := subU32 self.DataWriteMiss other.DataWriteMiss
    Cycles := subU64 self.Cycles other.Cycles }

end ProfilerCountSet

/-! ## Tick accounting -/

theorem wrapS32_of_isS32 {x : Int} (h : IsS32 x) : wrapS32 x = x := by
  unfold IsS32 at h
  unfold wrapS32
  omega

theorem isS32_wrapS32 (x : Int) : IsS32 (wrapS32 x) := by
  unfold IsS32 wrapS32
  omega

theorem wrapS32_add_wrapS32 (x y : Int) : wrapS32 (wrapS32 x + y) = wrapS32 (x + y) := by
  unfold wrapS32
  omega

section TickLemmas

variable {Registers Cop0Registers Instruction Reg GTERegs : Type}

theorem foldl_AddPendingTicks (ts : List Int) :
    ∀ s : State Registers Cop0Registers Instruction Reg GTERegs,
      wrapS32 (GetPendingTicks (ts.foldl AddPendingTicks s)) =
        wrapS32 (GetPendingTicks s + ts.sum) := by
  induction ts with
  | nil => intro s; simp
  | cons t ts ih =>
    intro s
    rw [List.foldl_cons, ih, List.sum_cons]
    simp only [GetPendingTicks, AddPendingTicks]
    rw [wrapS32_add_wrapS32, add_assoc]

theorem isS32_foldl_AddPendingTicks (ts : List Int) :
    ∀ s : State Registers Cop0Registers Instruction Reg GTERegs,
      IsS32 (GetPendingTicks s) → IsS32 (GetPendingTicks (ts.foldl AddPendingTicks s)) := by
  induction ts with
  | nil => intro s h; simpa using h
  | cons t ts ih =>
    intro s _
    rw [List.foldl_cons]
    exact ih _ (isS32_wrapS32 _)

end TickLemmas

/-! ### Theorems on the tick helpers -/

section TickTheorems

variable {Registers Cop0Registers Instruction Reg GTERegs : Type}

/-- C1: on a state whose `pending_ticks` p is non-negative, `ResetPendingTicks`
leaves `gte_completion_tick` equal to `max (g - p) 0`: it is `g - p` when
`p < g` and 0 otherwise, and the subtraction the code performs (the one of the
branch `p < g`) stays in the signed 32-bit range. -/
theorem ResetPendingTicks_gte_eq_max
    (s : State Registers Cop0Registers Instruction Reg GTERegs)
    (hp : IsS32 s.pending_ticks) (hg : IsS32 s.gte_completion_tick)
    (hp0 : 0 ≤ s.pending_ticks) :
    (ResetPendingTicks s).gte_completion_tick
        = max (s.gte_completion_tick - s.pending_ticks) 0 ∧
      (s.pending_ticks < s.gte_completion_tick →
        (ResetPendingTicks s).gte_completion_tick
            = s.gte_completion_tick - s.pending_ticks ∧
          IsS32 (s.gte_completion_tick - s.pending_ticks)) ∧
      (¬ s.pending_ticks < s.gte_completion_tick →
        (ResetPendingTicks s).gte_completion_tick = 0) := by
  unfold IsS32 at hp hg
  have hsub : s.pending_ticks < s.gte_completion_tick →
      wrapS32 (s.gte_completion_tick - s.pending_ticks)
        = s.gte_completion_tick - s.pending_ticks := by
    intro h
    apply wrapS32_of_isS32
    unfold IsS32
    omega
  refine ⟨?_, ?_, ?_⟩
  · by_cases h : s.pending_ticks < s.gte_completion_tick
    · simp only [ResetPendingTicks, if_pos h, hsub h]
      omega
    · simp only [ResetPendingTicks, if_neg h]
      omega
  · intro h
    refine ⟨?_, ?_⟩
    · simp only [ResetPendingTicks, if_pos h, hsub h]
    · unfold IsS32
      omega
  · intro h
    simp only [ResetPendingTicks, if_neg h]

theorem ResetPendingTicks_gte_eq_max_witness :
    (ResetPendingTicks (tickState 3 10)).gte_completion_tick = max ((10 : Int) - 3) 0 ∧
      (ResetPendingTicks (tickState 3 10)).gte_completion_tick = 7 :=
  have h := ResetPendingTicks_gte_eq_max (tickState 3 10)
    (by decide) (by decide) (by decide)
  ⟨h.1, (h.2.1 (by decide)).1⟩

/-- C2, as stated, fails: with `pending_ticks = -1` and
`gte_completion_tick = 2147483647` (both signed 32-bit values) the wrapped
subtraction yields `-2147483648`, which is negative. -/
theorem ResetPendingTicks_gte_negative :
    IsS32 (tickState (-1) 2147483647).pending_ticks ∧
      IsS32 (tickState (-1) 2147483647).gte_completion_tick ∧
      (ResetPendingTicks (tickState (-1) 2147483647)).gte_completion_tick = -2147483648 ∧
      ¬ 0 ≤ (ResetPendingTicks (tickState (-1) 2147483647)).gte_completion_tick := by
  decide

/-- C2, amended: over all signed 32-bit values of `pending_ticks` p and
`gte_completion_tick` g, with wraparound subtraction, the value left by
`ResetPendingTicks` is non-negative exactly when `g - p` does not exceed
`2^31 - 1`; in particular it is non-negative whenever p is non-negative. -/
theorem ResetPendingTicks_gte_nonneg_iff
    (s : State Registers Cop0Registers Instruction Reg GTERegs)
    (hp : IsS32 s.pending_ticks) (hg : IsS32 s.gte_completion_tick) :
    (0 ≤ (ResetPendingTicks s).gte_completion_tick ↔
        s.gte_completion_tick - s.pending_ticks ≤ 2147483647) ∧
      (0 ≤ s.pending_ticks → 0 ≤ (ResetPendingTicks s).gte_completion_tick) := by
  unfold IsS32 at hp hg
  have key : 0 ≤ (ResetPendingTicks s).gte_completion_tick ↔
      s.gte_completion_tick - s.pending_ticks ≤ 2147483647 := by
    by_cases h : s.pending_ticks < s.gte_completion_tick
    · simp only [ResetPendingTicks, if_pos h, wrapS32]
      omega
    · simp only [ResetPendingTicks, if_neg h]
      omega
  refine ⟨key, ?_⟩
  intro h0
  rw [key]
  omega

theorem ResetPendingTicks_gte_nonneg_iff_witness :
    (0 ≤ (ResetPendingTicks (tickState (-5) 20)).gte_completion_tick ↔
        (tickState (-5) 20).gte_completion_tick - (tickState (-5) 20).pending_ticks
          ≤ 2147483647) ∧
      (ResetPendingTicks (tickState (-5) 20)).gte_completion_tick = 25 :=
  ⟨(ResetPendingTicks_gte_nonneg_iff (tickState (-5) 20) (by decide) (by decide)).1,
    by decide⟩

/-- C3: after `ResetPendingTicks`, `GetPendingTicks` returns 0, and after the
further calls `AddPendingTicks t1`, ..., `AddPendingTicks tn` it returns the
sum `t1 + ... + tn` reduced to the signed 32-bit range, which is the exact
integer sum whenever no partial sum leaves that range. -/
theorem GetPendingTicks_after_reset_add
    (s : State Registers Cop0Registers Instruction Reg GTERegs) (ts : List Int) :
    GetPendingTicks (ResetPendingTicks s) = 0 ∧
      GetPendingTicks (ts.foldl AddPendingTicks (ResetPendingTicks s)) = wrapS32 ts.sum ∧
      ((∀ k, k ≤ ts.length → IsS32 (ts.take k).sum) →
        GetPendingTicks (ts.foldl AddPendingTicks (ResetPendingTicks s)) = ts.sum) := by
  have h0 : GetPendingTicks (ResetPendingTicks s) = 0 := rfl
  have hr : IsS32 (GetPendingTicks (ResetPendingTicks s)) := by
    rw [h0]; decide
  have hsum : GetPendingTicks (ts.foldl AddPendingTicks (ResetPendingTicks s))
      = wrapS32 ts.sum := by
    have h1 := foldl_AddPendingTicks ts (ResetPendingTicks s)
    rw [wrapS32_of_isS32 (isS32_foldl_AddPendingTicks ts _ hr), h0, zero_add] at h1
    exact h1
  refine ⟨h0, hsum, ?_⟩
  intro hall
  have hlast := hall ts.length (le_refl _)
  rw [List.take_length] at hlast
  rw [hsum, wrapS32_of_isS32 hlast]

theorem GetPendingTicks_after_reset_add_witness :
    GetPendingTicks ([2, 3, 7].foldl AddPendingTicks (ResetPendingTicks (tickState 9 4)))
      = ([2, 3, 7] : List Int).sum :=
  (GetPendingTicks_after_reset_add (tickState 9 4) [2, 3, 7]).2.2 (by decide)

/-- C4: `ResetPendingTicks` preserves the order of completion ticks: from the
same non-negative `pending_ticks` and completion ticks `g1 ≤ g2` it produces
completion ticks `g1' ≤ g2'`. -/
theorem ResetPendingTicks_gte_mono
    (s1 s2 : State Registers Cop0Registers Instruction Reg GTERegs)
    (hp : IsS32 s1.pending_ticks) (hg1 : IsS32 s1.gte_completion_tick)
    (hg2 : IsS32 s2.gte_completion_tick)
    (hsame : s2.pending_ticks = s1.pending_ticks) (hp0 : 0 ≤ s1.pending_ticks)
    (hle : s1.gte_completion_tick ≤ s2.gte_completion_tick) :
    (ResetPendingTicks s1).gte_completion_tick
      ≤ (ResetPendingTicks s2).gte_completion_tick := by
  unfold IsS32 at hp hg1 hg2
  simp only [ResetPendingTicks, hsame, wrapS32]
  split_ifs <;> omega

theorem ResetPendingTicks_gte_mono_witness :
    (ResetPendingTicks (tickState 5 3)).gte_completion_tick
        ≤ (ResetPendingTicks (tickState 5 9)).gte_completion_tick ∧
      (ResetPendingTicks (tickState 5 9)).gte_completion_tick = 4 :=
  ⟨ResetPendingTicks_gte_mono (tickState 5 3) (tickState 5 9)
      (by decide) (by decide) (by decide) rfl (by decide) (by decide),
    by decide⟩

/-- C8: the tick helpers touch only the tick counters. `AddPendingTicks`
changes no field of the state other than `pending_ticks`, and
`ResetPendingTicks` none other than `pending_ticks` and
`gte_completion_tick`: every other field reads the same before and after. -/
theorem tick_helpers_frame
    (s : State Registers Cop0Registers Instruction Reg GTERegs) (t : Int) :
    ((AddPendingTicks s t).downcount = s.downcount ∧
      (AddPendingTicks s t).gte_completion_tick = s.gte_completion_tick ∧
      (AddPendingTicks s t).regs = s.regs ∧
      (AddPendingTicks s t).cop0_regs = s.cop0_regs ∧
      (AddPendingTicks s t).pc = s.pc ∧
      (AddPendingTicks s t).npc = s.npc ∧
      (AddPendingTicks s t).current_instruction = s.current_instruction ∧
      (AddPendingTicks s t).current_instruction_pc = s.current_instruction_pc ∧
      (AddPendingTicks s t).current_instruction_in_branch_delay_slot
        = s.current_instruction_in_branch_delay_slot ∧
      (AddPendingTicks s t).current_instruction_was_branch_taken
        = s.current_instruction_was_branch_taken ∧
      (AddPendingTicks s t).next_instruction_is_branch_delay_slot
        = s.next_instruction_is_branch_delay_slot ∧
      (AddPendingTicks s t).branch_was_taken = s.branch_was_taken ∧
      (AddPendingTicks s t).exception_raised = s.exception_raised ∧
      (AddPendingTicks s t).bus_error = s.bus_error ∧
      (AddPendingTicks s t).load_delay_reg = s.load_delay_reg ∧
      (AddPendingTicks s t).next_load_delay_reg = s.next_load_delay_reg ∧
      (AddPendingTicks s t).load_delay_value = s.load_delay_value ∧
      (AddPendingTicks s t).next_load_delay_value = s.next_load_delay_value ∧
      (AddPendingTicks s t).next_instruction = s.next_instruction ∧
      (AddPendingTicks s t).cache_control = s.cache_control ∧
      (AddPendingTicks s t).gte_regs = s.gte_regs ∧
      (AddPendingTicks s t).use_debug_dispatcher = s.use_debug_dispatcher ∧
      (AddPendingTicks s t).fastmem_base = s.fastmem_base ∧
      (AddPendingTicks s t).memory_handlers = s.memory_handlers ∧
      (AddPendingTicks s t).dcache = s.dcache ∧
      (AddPendingTicks s t).icache_tags = s.icache_tags ∧
      (AddPendingTicks s t).icache_data = s.icache_data) ∧
    ((ResetPendingTicks s).downcount = s.downcount ∧
      (ResetPendingTicks s).regs = s.regs ∧
      (ResetPendingTicks s).cop0_regs = s.cop0_regs ∧
      (ResetPendingTicks s).pc = s.pc ∧
      (ResetPendingTicks s).npc = s.npc ∧
      (ResetPendingTicks s).current_instruction = s.current_instruction ∧
      (ResetPendingTicks s).current_instruction_pc = s.current_instruction_pc ∧
      (ResetPendingTicks s).current_instruction_in_branch_delay_slot
        = s.current_instruction_in_branch_delay_slot ∧
      (ResetPendingTicks s).current_instruction_was_branch_taken
        = s.current_instruction_was_branch_taken ∧
      (ResetPendingTicks s).next_instruction_is_branch_delay_slot
        = s.next_instruction_is_branch_delay_slot ∧
      (ResetPendingTicks s).branch_was_taken = s.branch_was_taken ∧
      (ResetPendingTicks s).exception_raised = s.exception_raised ∧
      (ResetPendingTicks s).bus_error = s.bus_error ∧
      (ResetPendingTicks s).load_delay_reg = s.load_delay_reg ∧
      (ResetPendingTicks s).next_load_delay_reg = s.next_load_delay_reg ∧
      (ResetPendingTicks s).load_delay_value = s.load_delay_value ∧
      (ResetPendingTicks s).next_load_delay_value = s.next_load_delay_value ∧
      (ResetPendingTicks s).next_instruction = s.next_instruction ∧
      (ResetPendingTicks s).cache_control = s.cache_control ∧
      (ResetPendingTicks s).gte_regs = s.gte_regs ∧
      (ResetPendingTicks s).use_debug_dispatcher = s.use_debug_dispatcher ∧
      (ResetPendingTicks s).fastmem_base = s.fastmem_base ∧
      (ResetPendingTicks s).memory_handlers = s.memory_handlers ∧
      (ResetPendingTicks s).dcache = s.dcache ∧
      (ResetPendingTicks s).icache_tags = s.icache_tags ∧
      (ResetPendingTicks s).icache_data = s.icache_data) := by
  refine ⟨?_, ?_⟩
  · simp only [AddPendingTicks, and_self]
  · simp only [ResetPendingTicks, and_self]

/-- C9: `ResetPendingTicks` is idempotent on states with a non-negative
`pending_ticks`: a second call returns exactly the state the first one
produced, since it sees `pending_ticks = 0` and a non-negative
`gte_completion_tick`. -/
theorem ResetPendingTicks_idempotent
    (s : State Registers Cop0Registers Instruction Reg GTERegs)
    (hp : IsS32 s.pending_ticks) (hg : IsS32 s.gte_completion_tick)
    (hp0 : 0 ≤ s.pending_ticks) :
    ResetPendingTicks (ResetPendingTicks s) = ResetPendingTicks s ∧
      (ResetPendingTicks s).pending_ticks = 0 ∧
      0 ≤ (ResetPendingTicks s).gte_completion_tick := by
  unfold IsS32 at hp hg
  have hnn : 0 ≤ (ResetPendingTicks s).gte_completion_tick := by
    simp only [ResetPendingTicks, wrapS32]
    split_ifs <;> omega
  have hgs : IsS32 (ResetPendingTicks s).gte_completion_tick := by
    simp only [ResetPendingTicks]
    split_ifs
    · exact isS32_wrapS32 _
    · decide
  have hg2 : (ResetPendingTicks (ResetPendingTicks s)).gte_completion_tick
      = (ResetPendingTicks s).gte_completion_tick := by
    generalize hr : ResetPendingTicks s = r at hnn hgs
    have hrp : r.pending_ticks = 0 := by rw [← hr]; rfl
    unfold IsS32 at hgs
    simp only [ResetPendingTicks, hrp, wrapS32]
    split_ifs <;> omega
  refine ⟨?_, rfl, hnn⟩
  have hshape : ∀ r : State Registers Cop0Registers Instruction Reg GTERegs,
      ResetPendingTicks r
        = { r with gte_completion_tick := (ResetPendingTicks r).gte_completion_tick
                   pending_ticks := 0 } := fun _ => rfl
  rw [hshape (ResetPendingTicks s), hg2]
  rfl

theorem ResetPendingTicks_idempotent_witness :
    ResetPendingTicks (ResetPendingTicks (tickState 3 10)) = ResetPendingTicks (tickState 3 10) ∧
      (ResetPendingTicks (tickState 3 10)).gte_completion_tick = 7 :=
  ⟨(ResetPendingTicks_idempotent (tickState 3 10) (by decide) (by decide) (by decide)).1,
    by decide⟩

end TickTheorems

/-! ## Bit masks -/

theorem testBit_shifted_ones (n k i : Nat) :
    ((2 ^ n - 1) <<< k).testBit i = (decide (k ≤ i) && decide (i < k + n)) := by
  rw [Nat.testBit_shiftLeft, Nat.testBit_two_pow_sub_one]
  by_cases h1 : k ≤ i <;> by_cases h2 : i < k + n <;> simp [h1, h2] <;> omega

theorem testBit_of_lt_of_le {a n i : Nat} (ha : a < 2 ^ n) (hi : n ≤ i) :
    a.testBit i = false :=
  Nat.testBit_lt_two_pow (lt_of_lt_of_le ha (Nat.pow_le_pow_right (by decide) hi))

theorem and_shifted_ones (a n k : Nat) (ha : a < 2 ^ (k + n)) :
    a &&& ((2 ^ n - 1) <<< k) = a / 2 ^ k * 2 ^ k := by
  apply Nat.eq_of_testBit_eq
  intro i
  rw [Nat.testBit_and, testBit_shifted_ones, Nat.mul_comm, Nat.testBit_mul_pow_two,
    ← Nat.shiftRight_eq_div_pow, Nat.testBit_shiftRight]
  by_cases h1 : k ≤ i
  · have hi : k + (i - k) = i := by omega
    by_cases h2 : i < k + n
    · simp [h1, h2, hi]
    · have h3 : a.testBit i = false := testBit_of_lt_of_le ha (by omega)
      simp [h1, h2, hi, h3]
  · simp [h1]

theorem testBit_ICACHE_TAG_ADDRESS_MASK (i : Nat) :
    ICACHE_TAG_ADDRESS_MASK.testBit i = (decide (4 ≤ i) && decide (i < 4 + 28)) := by
  have h : ICACHE_TAG_ADDRESS_MASK = (2 ^ 28 - 1) <<< 4 := by decide
  rw [h, testBit_shifted_ones]

theorem testBit_ICACHE_INVALID_BITS (i : Nat) :
    ICACHE_INVALID_BITS.testBit i = decide (i < 4) := by
  have h : ICACHE_INVALID_BITS = 2 ^ 4 - 1 := by decide
  rw [h, Nat.testBit_two_pow_sub_one]

/-! ## Cache geometry -/

/-- C6: the per-word invalid bits of an instruction-cache line share the tag
word with the tag address without colliding. `ICACHE_INVALID_BITS` has exactly
`ICACHE_SLOTS_PER_LINE` (= 4) set bits, all below bit
`log2 ICACHE_LINE_SIZE`; it is disjoint from `ICACHE_TAG_ADDRESS_MASK` and the
two cover all 32 bits; so from the tag word built of an address `a` and an
invalid-bit pattern `v ≤ ICACHE_INVALID_BITS` both parts are read back
unchanged. The geometry is consistent: lines times line size, and lines times
slots per line times four bytes, both give `ICACHE_SIZE`. -/
theorem icache_tag_packing :
    (popCount32 ICACHE_INVALID_BITS = ICACHE_SLOTS_PER_LINE ∧ ICACHE_SLOTS_PER_LINE = 4) ∧
      (∀ i, ICACHE_INVALID_BITS.testBit i = true → i < Nat.log2 ICACHE_LINE_SIZE) ∧
      (ICACHE_INVALID_BITS &&& ICACHE_TAG_ADDRESS_MASK = 0 ∧
        ICACHE_INVALID_BITS ||| ICACHE_TAG_ADDRESS_MASK = 0xFFFFFFFF) ∧
      (∀ a v : Nat, a < 4294967296 → v ≤ ICACHE_INVALID_BITS →
        icacheTagWord a v &&& ICACHE_TAG_ADDRESS_MASK = a &&& ICACHE_TAG_ADDRESS_MASK ∧
          icacheTagWord a v &&& ICACHE_INVALID_BITS = v) ∧
      (ICACHE_LINES * ICACHE_LINE_SIZE = ICACHE_SIZE ∧
        ICACHE_LINES * ICACHE_SLOTS_PER_LINE * 4 = ICACHE_SIZE) := by
  refine ⟨by decide, ?_, by decide, ?_, by decide⟩
  · intro i hi
    rw [testBit_ICACHE_INVALID_BITS] at hi
    have hlog : Nat.log2 ICACHE_LINE_SIZE = 4 := by simp [ICACHE_LINE_SIZE, Nat.log2]
    rw [hlog]
    simpa using hi
  · intro a v _ hv
    have hv16 : v < 2 ^ 4 := by
      have : ICACHE_INVALID_BITS = 15 := rfl
      omega
    refine ⟨?_, ?_⟩
    · apply Nat.eq_of_testBit_eq
      intro i
      simp only [icacheTagWord, Nat.testBit_and, Nat.testBit_or,
        testBit_ICACHE_TAG_ADDRESS_MASK]
      by_cases h4 : 4 ≤ i
      · rw [testBit_of_lt_of_le hv16 h4]
        simp
      · simp [h4]
    · apply Nat.eq_of_testBit_eq
      intro i
      simp only [icacheTagWord, Nat.testBit_and, Nat.testBit_or,
        testBit_ICACHE_TAG_ADDRESS_MASK, testBit_ICACHE_INVALID_BITS]
      by_cases h4 : 4 ≤ i
      · rw [testBit_of_lt_of_le hv16 h4]
        have : ¬ i < 4 := by omega
        simp [this]
      · have : i < 4 := by omega
        simp [h4, this]

theorem icache_tag_packing_witness :
    icacheTagWord 0xBFC00124 0x0A &&& ICACHE_TAG_ADDRESS_MASK
        = 0xBFC00124 &&& ICACHE_TAG_ADDRESS_MASK ∧
      icacheTagWord 0xBFC00124 0x0A &&& ICACHE_INVALID_BITS = 0x0A :=
  icache_tag_packing.2.2.2.1 0xBFC00124 0x0A (by decide) (by decide)

/-- C10: the data-cache masks split every physical address into a region base
and an in-bounds offset. `DCACHE_LOCATION_MASK` and `DCACHE_OFFSET_MASK` are
disjoint and cover all 32 bits, `DCACHE_LOCATION` has no offset bit set, a
32-bit address `a` has `a & DCACHE_LOCATION_MASK = DCACHE_LOCATION` exactly
when `DCACHE_LOCATION ≤ a < DCACHE_LOCATION + DCACHE_SIZE`, the offset
`a & DCACHE_OFFSET_MASK` is always below `DCACHE_SIZE`, and in that range it is
`a - DCACHE_LOCATION`. -/
theorem dcache_masks_partition :
    (DCACHE_LOCATION_MASK &&& DCACHE_OFFSET_MASK = 0 ∧
        DCACHE_LOCATION_MASK ||| DCACHE_OFFSET_MASK = 0xFFFFFFFF) ∧
      DCACHE_LOCATION &&& DCACHE_OFFSET_MASK = 0 ∧
      (∀ a : Nat, a < 4294967296 →
        ((a &&& DCACHE_LOCATION_MASK = DCACHE_LOCATION ↔
            DCACHE_LOCATION ≤ a ∧ a < DCACHE_LOCATION + DCACHE_SIZE) ∧
          a &&& DCACHE_OFFSET_MASK < DCACHE_SIZE ∧
          (DCACHE_LOCATION ≤ a ∧ a < DCACHE_LOCATION + DCACHE_SIZE →
            a &&& DCACHE_OFFSET_MASK = a - DCACHE_LOCATION))) := by
  refine ⟨by decide, by decide, ?_⟩
  intro a ha
  have hloc : DCACHE_LOCATION_MASK = (2 ^ 22 - 1) <<< 10 := by decide
  have hoff : DCACHE_OFFSET_MASK = 2 ^ 10 - 1 := by decide
  have h1 : a &&& DCACHE_LOCATION_MASK = a / 1024 * 1024 := by
    rw [hloc, and_shifted_ones a 22 10 (by simpa using ha)]
    norm_num
  have h2 : a &&& DCACHE_OFFSET_MASK = a % 1024 := by
    rw [hoff, Nat.and_pow_two_sub_one_eq_mod]
  have hL : DCACHE_LOCATION = 528482304 := rfl
  have hS : DCACHE_SIZE = 1024 := rfl
  rw [h1, h2, hL, hS]
  refine ⟨?_, ?_, ?_⟩
  · omega
  · omega
  · omega

theorem dcache_masks_partition_witness :
    (0x1F800123 &&& DCACHE_LOCATION_MASK = DCACHE_LOCATION ↔
        DCACHE_LOCATION ≤ 0x1F800123 ∧ 0x1F800123 < DCACHE_LOCATION + DCACHE_SIZE) ∧
      0x1F800123 &&& DCACHE_OFFSET_MASK < DCACHE_SIZE ∧
      (DCACHE_LOCATION ≤ 0x1F800123 ∧ 0x1F800123 < DCACHE_LOCATION + DCACHE_SIZE →
        0x1F800123 &&& DCACHE_OFFSET_MASK = 0x1F800123 - DCACHE_LOCATION) :=
  dcache_masks_partition.2.2 0x1F800123 (by decide)

/-! ## The cache-control register -/

namespace BitField

theorem testBit_GetMask (f : BitField) (hf : f.index + f.count ≤ 32) (i : Nat) :
    f.GetMask.testBit i = (decide (f.index ≤ i) && decide (i < f.index + f.count)) := by
  have h32 : (4294967296 : Nat) = 2 ^ 32 := by norm_num
  have hones : (0xFFFFFFFF : Nat) = 2 ^ 32 - 1 := by norm_num
  unfold GetMask wrapU32
  rw [h32, Nat.testBit_mod_two_pow, Nat.testBit_shiftLeft, Nat.testBit_shiftRight, hones,
    Nat.testBit_two_pow_sub_one]
  by_cases h1 : f.index ≤ i <;> by_cases h2 : i < f.index + f.count <;>
    by_cases h3 : i < 32 <;> simp [h1, h2, h3] <;> omega

theorem testBit_SetValue_of_not_inRange (f : BitField) (hf : f.index + f.count ≤ 32)
    (data value i : Nat) (hdata : data < 2 ^ 32) (hi : ¬ f.InRange i) :
    (f.SetValue data value).testBit i = data.testBit i := by
  have hones : (0xFFFFFFFF : Nat) = 2 ^ 32 - 1 := by norm_num
  have hm : f.GetMask.testBit i = false := by
    rw [testBit_GetMask f hf]
    unfold InRange at hi
    by_cases h1 : f.index ≤ i <;> by_cases h2 : i < f.index + f.count <;> simp [h1, h2]
    exact hi ⟨h1, h2⟩
  unfold SetValue
  rw [Nat.testBit_or, Nat.testBit_and, Nat.testBit_and, Nat.testBit_xor, hm, hones,
    Nat.testBit_two_pow_sub_one]
  by_cases h3 : i < 32
  · simp [h3]
  · have hd : data.testBit i = false := testBit_of_lt_of_le hdata (by omega)
    simp [h3, hd]

theorem GetValue_SetValue_of_disjoint (f g : BitField) (hf : f.index + f.count ≤ 32)
    (hg : g.index + g.count ≤ 32) (hdisj : ∀ i, g.InRange i → ¬ f.InRange i)
    (data value : Nat) (hdata : data < 2 ^ 32) :
    g.GetValue (f.SetValue data value) = g.GetValue data := by
  unfold GetValue
  congr 1
  apply Nat.eq_of_testBit_eq
  intro i
  rw [Nat.testBit_and, Nat.testBit_and]
  by_cases hgi : g.InRange i
  · rw [testBit_SetValue_of_not_inRange f hf data value i hdata (hdisj i hgi)]
  · have hm : g.GetMask.testBit i = false := by
      rw [testBit_GetMask g hg]
      unfold InRange at hgi
      by_cases h1 : g.index ≤ i <;> by_cases h2 : i < g.index + g.count <;> simp [h1, h2]
      exact hgi ⟨h1, h2⟩
    rw [hm]
    simp

end BitField

namespace CacheControl

theorem Field.bitfield_le (F : Field) : F.bitfield.index + F.bitfield.count ≤ 32 := by
  cases F <;> decide

theorem Field.ranges_disjoint (F G : Field) (h : F ≠ G) (i : Nat) :
    F.bitfield.InRange i → ¬ G.bitfield.InRange i := by
  cases F <;> cases G <;> first
    | exact absurd rfl h
    | (simp only [Field.bitfield, BitField.InRange]; omega)

end CacheControl

/-- C5: the fields of `CacheControl` are independently togglable. The seven
fields sit at bit 0, 1, 2, 3, 7, 8-9 and 11 of the 32-bit word, their bit
ranges are pairwise disjoint, and on every 32-bit value of `bits` a write of
any value to a field `F` leaves the value read from every other field, and
every bit outside the range of `F`, unchanged. -/
theorem CacheControl_fields_independent :
    (CacheControl.Field.lock_mode.bitfield.GetMask = 0x001 ∧
        CacheControl.Field.invalidate_mode.bitfield.GetMask = 0x002 ∧
        CacheControl.Field.tag_test_mode.bitfield.GetMask = 0x004 ∧
        CacheControl.Field.dcache_scratchpad.bitfield.GetMask = 0x008 ∧
        CacheControl.Field.dcache_enable.bitfield.GetMask = 0x080 ∧
        CacheControl.Field.icache_fill_size.bitfield.GetMask = 0x300 ∧
        CacheControl.Field.icache_enable.bitfield.GetMask = 0x800) ∧
      (∀ F G : CacheControl.Field, F ≠ G →
        F.bitfield.GetMask &&& G.bitfield.GetMask = 0 ∧
          ∀ i, ¬ (F.bitfield.InRange i ∧ G.bitfield.InRange i)) ∧
      (∀ (c : CacheControl) (F : CacheControl.Field) (v : Nat), c.bits < 4294967296 →
        (∀ G : CacheControl.Field, G ≠ F → (c.write F v).read G = c.read G) ∧
          (∀ i, ¬ F.bitfield.InRange i →
            (c.write F v).bits.testBit i = c.bits.testBit i)) := by
  refine ⟨by decide, ?_, ?_⟩
  · intro F G h
    refine ⟨?_, ?_⟩
    · cases F <;> cases G <;> first
        | exact absurd rfl h
        | decide
    · intro i hi
      exact CacheControl.Field.ranges_disjoint F G h i hi.1 hi.2
  · intro c F v hc
    have hc32 : c.bits < 2 ^ 32 := by norm_num; exact hc
    refine ⟨?_, ?_⟩
    · intro G hG
      unfold CacheControl.read CacheControl.write
      rw [BitField.GetValue_SetValue_of_disjoint F.bitfield G.bitfield
        (CacheControl.Field.bitfield_le F) (CacheControl.Field.bitfield_le G)
        (CacheControl.Field.ranges_disjoint G F hG) c.bits _ hc32]
    · intro i hi
      exact BitField.testBit_SetValue_of_not_inRange F.bitfield
        (CacheControl.Field.bitfield_le F) c.bits _ i hc32 hi

theorem CacheControl_fields_independent_witness :
    (((CacheControl.mk 0x0001E88).write CacheControl.Field.icache_fill_size 0).read
          CacheControl.Field.icache_enable
        = (CacheControl.mk 0x0001E88).read CacheControl.Field.icache_enable) ∧
      ((CacheControl.mk 0x0001E88).write CacheControl.Field.icache_fill_size 0).bits
        = 0x0001C88 :=
  ⟨(CacheControl_fields_independent.2.2 (CacheControl.mk 0x0001E88)
      CacheControl.Field.icache_fill_size 0 (by decide)).1
      CacheControl.Field.icache_enable (by decide),
    by decide⟩

/-! ## Profiler counter sets -/

/-- C7: addition and subtraction of profiler counter sets undo each other field
by field, the six `u32` counters modulo `2^32` and `Cycles` modulo `2^64`:
`(a + b) - b = a` and `(a - b) + b = a`, and so the difference of a later
snapshot `a + b` and the earlier snapshot `a` is the accumulated `b`, also
when a counter wrapped. -/
theorem ProfilerCountSet_add_sub_cancel (a b : ProfilerCountSet)
    (ha : a.WF) (hb : b.WF) :
    (a.add b).sub b = a ∧ (a.sub b).add b = a ∧ (a.add b).sub a = b := by
  obtain ⟨a1, a2, a3, a4, a5, a6, a7⟩ := a
  obtain ⟨b1, b2, b3, b4, b5, b6, b7⟩ := b
  simp only [ProfilerCountSet.WF] at ha hb
  obtain ⟨ha1, ha2, ha3, ha4, ha5, ha6, ha7⟩ := ha
  obtain ⟨hb1, hb2, hb3, hb4, hb5, hb6, hb7⟩ := hb
  simp only [ProfilerCountSet.add, ProfilerCountSet.sub, ProfilerCountSet.subU32,
    ProfilerCountSet.subU64, wrapU32, wrapU64, ProfilerCountSet.mk.injEq]
  refine ⟨⟨?_, ?_, ?_, ?_, ?_, ?_, ?_⟩, ⟨?_, ?_, ?_, ?_, ?_, ?_, ?_⟩,
    ⟨?_, ?_, ?_, ?_, ?_, ?_, ?_⟩⟩ <;> omega

theorem ProfilerCountSet_add_sub_cancel_witness :
    ((ProfilerCountSet.mk 4294967295 2 3 4 5 6 18446744073709551615).add
        (ProfilerCountSet.mk 7 1 0 4294967295 2 9 12)).sub
        (ProfilerCountSet.mk 7 1 0 4294967295 2 9 12)
      = ProfilerCountSet.mk 4294967295 2 3 4 5 6 18446744073709551615 :=
  (ProfilerCountSet_add_sub_cancel
    (ProfilerCountSet.mk 4294967295 2 3 4 5 6 18446744073709551615)
    (ProfilerCountSet.mk 7 1 0 4294967295 2 9 12) (by decide) (by decide)).1

end CPU
